import Mathlib

/-!
Verification development for the GenAgentX agent-execution core.

Shallow embedding of:
  * `src/services/toolExecutor.js` — `executeTool`, `executeCustomCode`,
    `executeCalculator`, `executeDataAnalyzer`, `parseFunctionCalls`;
  * `src/services/agentExecutor.js` — `executeAgentWithTools` (the
    conversation loop), `extractGeminiParameters` and the
    `generationConfig` defaulting inside `callGeminiAPI`.

JavaScript numbers are modelled as rationals (`ℚ`, exact at every input the
claims exercise), extended with signed infinity and NaN where the calculator
needs them.  Platform primitives that are not code of this repository (the
`AsyncFunction` evaluator for user tool bodies, `fetch`, `Date`, `crypto`,
`JSON.parse`, `JSON.stringify`, the Gemini HTTP endpoint) are passed in as
explicit function parameters, so every theorem quantifies over their
behaviour and every witness instantiates them concretely.
-/

/-- Exact rational number with kernel-computable normalized arithmetic,
standing in for the JS double (exact at every input the claims exercise).
Mathlib's `Rat` operations go through well-founded recursion and do not
reduce inside the kernel, so concrete runs could not be settled by
`decide`/`rfl`; this type replays the same normalized-fraction semantics
with structural (fuel) recursion only.  The denominator is always
positive and the fraction reduced, so equality is syntactic. -/
structure QV where
  num : Int
  den : Nat
  deriving DecidableEq

/-- Euclid's algorithm on structural fuel; `2 * (a + b) + 1` steps always
suffice, so the fallback is unreachable. -/
def gcdFuel : Nat → Nat → Nat → Nat
  | 0, a, b => a + b
  | _ + 1, 0, b => b
  | fuel + 1, a + 1, b => gcdFuel fuel (b % (a + 1)) (a + 1)

def natGcd (a b : Nat) : Nat := gcdFuel (2 * (a + b) + 1) a b

/-- Build the reduced fraction `n / d` (`d = 0` is unreachable at every
call site: denominators are products of positive numbers). -/
def QV.norm (n : Int) (d : Nat) : QV :=
  if d = 0 then ⟨0, 0⟩
  else
    let g := natGcd n.natAbs d
    ⟨n / (g : Int), d / g⟩

def QV.ofNat (n : Nat) : QV := ⟨(n : Int), 1⟩

instance (n : Nat) : OfNat QV n := ⟨QV.ofNat n⟩

def QV.add (a b : QV) : QV :=
  QV.norm (a.num * (b.den : Int) + b.num * (a.den : Int)) (a.den * b.den)

def QV.negQ (a : QV) : QV := ⟨-a.num, a.den⟩

def QV.sub (a b : QV) : QV := a.add b.negQ

def QV.mul (a b : QV) : QV := QV.norm (a.num * b.num) (a.den * b.den)

/-- Exact division; callers divide only by non-zero values. -/
def QV.div (a b : QV) : QV :=
  QV.norm (if b.num < 0 then -(a.num * (b.den : Int)) else a.num * (b.den : Int))
    (a.den * b.num.natAbs)

/-- Decidable `a ≤ b` by cross-multiplication (denominators positive). -/
def QV.ble (a b : QV) : Bool := a.num * (b.den : Int) ≤ b.num * (a.den : Int)

/-- Value of the fraction in `ℚ`, used only to state the real-valued
standard-deviation bound. -/
def QV.toRat (q : QV) : ℚ := (q.num : ℚ) / (q.den : ℚ)

/-- Model of a JavaScript value as far as the agent core manipulates one:
`undefined`, `null`, booleans, finite numbers (as rationals), strings,
arrays and plain objects. -/
inductive JValue where
  | undefined
  | null
  | bool (b : Bool)
  | num (q : QV)
  | str (s : String)
  | arr (elems : List JValue)
  | obj (fields : List (String × JValue))

/-- Property read `v[k]`.  On objects it returns the first binding for `k`
(JS objects have unique keys, so a list model with first-wins is faithful);
reading a missing key, or any key of a non-object, yields `undefined`.
(The embedding never reads a property of `null`/`undefined`, which would
throw in JS; every such site is modelled explicitly at its caller.) -/
def JValue.getField : JValue → String → JValue
  | .obj fields, k =>
      match fields.find? (fun f => f.1 = k) with
      | some f => f.2
      | none => .undefined
  | _, _ => .undefined

/-- JS truthiness of a modelled value (`Boolean(v)`).  Finite numbers are
truthy iff non-zero; NaN never appears as a stored `JValue` in this
development (see `extractGeminiParameters`). -/
def JValue.truthy : JValue → Bool
  | .undefined => false
  | .null => false
  | .bool b => b
  | .num q => q.num ≠ 0
  | .str s => s ≠ ""
  | .arr _ => true
  | .obj _ => true

/-- The character class `\s` of JS regular expressions, which is also the
set trimmed by `String.prototype.trim` and skipped by `parseFloat`:
ASCII whitespace, NBSP, the Unicode space separators, the line separators
U+2028/U+2029 and the BOM. -/
def isJsSpace (c : Char) : Bool :=
  let n := c.toNat
  [9, 10, 11, 12, 13, 32, 160, 5760, 8232, 8233, 8239, 8287, 12288, 65279].contains n
    || (Nat.ble 8192 n && Nat.ble n 8202)

/-- Numeric value of a list of decimal digit characters. -/
def natOfDigits (ds : List Char) : Nat :=
  ds.foldl (fun n c => 10 * n + (c.toNat - 48)) 0

/-- Split a character list into its maximal decimal-digit prefix and the
rest. -/
def spanDigits : List Char → List Char × List Char
  | [] => ([], [])
  | c :: cs =>
      if c.isDigit then
        let p := spanDigits cs
        (c :: p.1, p.2)
      else ([], c :: cs)

theorem spanDigits_rest_length (l : List Char) :
    (spanDigits l).2.length ≤ l.length := by
  induction l with
  | nil => simp [spanDigits]
  | cons c cs ih =>
      by_cases h : c.isDigit <;> simp [spanDigits, h] <;> omega

theorem spanDigits_parts_length (l : List Char) :
    (spanDigits l).1.length + (spanDigits l).2.length = l.length := by
  induction l with
  | nil => simp [spanDigits]
  | cons c cs ih =>
      by_cases h : c.isDigit <;> simp [spanDigits, h] <;> omega

/-- JS strict equality `name === v` between a known string and a modelled
value: true exactly when `v` is a string with the same contents. -/
def nameEq (tname : String) : JValue → Bool
  | .str s => s = tname
  | _ => false

/-- `parseFloat` on a character list already stripped of leading
whitespace and of its sign: the longest prefix `digits [. digits] [e|E
[sign] digits]` is converted; `none` models NaN (no digit at all).
Non-finite spellings ("Infinity") are outside the model; no claim
exercises them. -/
def parseFloatBody (l : List Char) : Option QV :=
  let ip := spanDigits l
  let intDs := ip.1
  let (fracDs, afterFrac) :=
    match ip.2 with
    | '.' :: r =>
        let fp := spanDigits r
        (fp.1, fp.2)
    | r => ([], r)
  if intDs.isEmpty && fracDs.isEmpty then
    none
  else
    let mant : QV :=
      (QV.ofNat (natOfDigits intDs)).add
        ((QV.ofNat (natOfDigits fracDs)).div (QV.ofNat (10 ^ fracDs.length)))
    let expVal : Option ℤ :=
      match afterFrac with
      | 'e' :: r | 'E' :: r =>
          match r with
          | '+' :: r2 =>
              let ep := spanDigits r2
              if ep.1.isEmpty then none else some (natOfDigits ep.1 : ℤ)
          | '-' :: r2 =>
              let ep := spanDigits r2
              if ep.1.isEmpty then none else some (-(natOfDigits ep.1 : ℤ))
          | _ =>
              let ep := spanDigits r
              if ep.1.isEmpty then none else some (natOfDigits ep.1 : ℤ)
      | _ => none
    some (match expVal with
      | some e =>
          if 0 ≤ e then mant.mul (QV.ofNat (10 ^ e.toNat))
          else mant.div (QV.ofNat (10 ^ (-e).toNat))
      | none => mant)

/-- JS `parseFloat` applied to a string: skip `\s`-whitespace, read an
optional sign, then the longest valid decimal prefix; `none` models NaN. -/
def jsParseFloatString (s : String) : Option QV :=
  let l := s.toList.dropWhile isJsSpace
  match l with
  | '+' :: r => parseFloatBody r
  | '-' :: r => (parseFloatBody r).map QV.negQ
  | r => parseFloatBody r

/-- JS `parseFloat(v)` for a modelled value: a number parses back to itself
(shortest round-trip printing), a string is parsed, and `true`/`false`/
`null`/`undefined` stringify to words with no leading digit, hence NaN.
String-coercion of arrays/objects (e.g. `parseFloat([1]) = 1`) is outside
the model; the generation parameters and analyzer inputs the claims
exercise are scalars. -/
def jsParseFloatValue : JValue → Option QV
  | .num q => some q
  | .str s => jsParseFloatString s
  | _ => none

/-- A JS number as the calculator manipulates one: finite (exact rational
model of the double), signed infinity, or NaN. -/
inductive NumV where
  | fin (q : QV)
  | inf (pos : Bool)
  | nan
  deriving DecidableEq

def NumV.add : NumV → NumV → NumV
  | .nan, _ => .nan
  | _, .nan => .nan
  | .inf a, .inf b => if a = b then .inf a else .nan
  | .inf a, .fin _ => .inf a
  | .fin _, .inf b => .inf b
  | .fin a, .fin b => .fin (a.add b)

def NumV.neg : NumV → NumV
  | .fin q => .fin q.negQ
  | .inf a => .inf (!a)
  | .nan => .nan

def NumV.sub (a b : NumV) : NumV := a.add b.neg

def NumV.mul : NumV → NumV → NumV
  | .nan, _ => .nan
  | _, .nan => .nan
  | .inf a, .inf b => .inf (a == b)
  | .inf a, .fin q => if q.num = 0 then .nan else .inf (if 0 < q.num then a else !a)
  | .fin q, .inf b => if q.num = 0 then .nan else .inf (if 0 < q.num then b else !b)
  | .fin a, .fin b => .fin (a.mul b)

/-- JS division; a zero divisor behaves as `+0` (`-0` is not modelled,
no claim divides). -/
def NumV.div : NumV → NumV → NumV
  | .nan, _ => .nan
  | _, .nan => .nan
  | .inf _, .inf _ => .nan
  | .inf a, .fin q => .inf (if 0 ≤ q.num then a else !a)
  | .fin _, .inf _ => .fin 0
  | .fin a, .fin b =>
      if b.num = 0 then
        if a.num = 0 then .nan else .inf (decide (0 < a.num))
      else .fin (a.div b)

/-- Engine rendering of a number inside an error message.  Integers render
exactly as JS does; a non-integer callee would render as a fraction rather
than decimally, but no claim reaches that case. -/
def renderQ (q : QV) : String :=
  if q.den = 1 then toString q.num else toString q.num ++ "/" ++ toString q.den

def NumV.render : NumV → String
  | .fin q => renderQ q
  | .inf b => if b then "Infinity" else "-Infinity"
  | .nan => "NaN"

/-- The characters kept by the calculator sanitizer
`expression.replace` with the class complement of `0-9 + - * / ( ) . \s`. -/
def isCalcKept (c : Char) : Bool :=
  c.isDigit || c == '+' || c == '-' || c == '*' || c == '/' || c == '(' || c == ')'
    || c == '.' || isJsSpace c

def sanitizeExpression (s : String) : String :=
  String.mk (s.toList.filter isCalcKept)

/-- Tokens of the sanitized expression language. -/
inductive Tok where
  | num (q : QV)
  | plus | minus | star | slash | lparen | rparen | dot
  deriving DecidableEq

/-- Numeric value of the literal `intDigits . fracDigits`. -/
def mkNumLit (intDs fracDs : List Char) : QV :=
  (QV.ofNat (natOfDigits intDs)).add
    ((QV.ofNat (natOfDigits fracDs)).div (QV.ofNat (10 ^ fracDs.length)))

/-- Greedy scan of one JS numeric literal (`digits [. digits]`, or
`. digits` when called at a dot): returns its value and the rest. -/
def lexNumber (l : List Char) : QV × List Char :=
  match (spanDigits l).2 with
  | '.' :: r => (mkNumLit (spanDigits l).1 (spanDigits r).1, (spanDigits r).2)
  | _ => (mkNumLit (spanDigits l).1 [], (spanDigits l).2)

theorem lexNumber_rest_le (l : List Char) :
    (lexNumber l).2.length ≤ (spanDigits l).2.length := by
  unfold lexNumber
  split
  next r heq =>
    have h1 := spanDigits_rest_length r
    have h2 : (spanDigits l).2.length = r.length + 1 := by rw [heq]; simp
    simp only
    omega
  next => exact Nat.le_refl _

theorem lexNumber_rest_length (l : List Char) (h : (spanDigits l).1 ≠ []) :
    (lexNumber l).2.length < l.length := by
  have hp := spanDigits_parts_length l
  have hle := lexNumber_rest_le l
  have h1 : 1 ≤ (spanDigits l).1.length := by
    cases hh : (spanDigits l).1 with
    | nil => exact absurd hh h
    | cons a b => simp
  omega

theorem lexNumber_dot_rest_length (cs : List Char) :
    (lexNumber ('.' :: cs)).2.length < cs.length + 1 := by
  have hdot : spanDigits ('.' :: cs) = ([], '.' :: cs) := by
    simp [spanDigits]
  have hle := lexNumber_rest_le ('.' :: cs)
  rw [hdot] at hle
  have hstep : (lexNumber ('.' :: cs)).2.length ≤ (spanDigits cs).2.length := by
    unfold lexNumber
    rw [hdot]
    simp only
    exact Nat.le_refl _
  have := spanDigits_rest_length cs
  omega

/-- Greedy JS lexer for the sanitized character set: numeric literals, the
four operators, parentheses, a lone `.` (member-access punctuator), with
`\s` skipped.  Any other character is a lexing error (unreachable from the
sanitizer's output).  Structural recursion on fuel; every step consumes at
least one character, so `tokenize` supplies fuel that can never run out
(`lexNumber_rest_length`/`lexNumber_dot_rest_length` witness the
consumption). -/
def tokenizeFuel (fuel : Nat) (l : List Char) : Except String (List Tok) :=
  match fuel with
  | 0 => .error "out of fuel"
  | fuel + 1 =>
    match l with
    | [] => .ok []
    | c :: cs =>
      if isJsSpace c then tokenizeFuel fuel cs
      else if c.isDigit then
        (tokenizeFuel fuel (lexNumber (c :: cs)).2).map
          (fun ts => .num (lexNumber (c :: cs)).1 :: ts)
      else if c = '.' then
        match cs with
        | d :: ds =>
          if d.isDigit then
            (tokenizeFuel fuel (lexNumber ('.' :: d :: ds)).2).map
              (fun ts => .num (lexNumber ('.' :: d :: ds)).1 :: ts)
          else (tokenizeFuel fuel (d :: ds)).map (fun ts => .dot :: ts)
        | [] => .ok [.dot]
      else if c = '+' then (tokenizeFuel fuel cs).map (fun ts => .plus :: ts)
      else if c = '-' then (tokenizeFuel fuel cs).map (fun ts => .minus :: ts)
      else if c = '*' then (tokenizeFuel fuel cs).map (fun ts => .star :: ts)
      else if c = '/' then (tokenizeFuel fuel cs).map (fun ts => .slash :: ts)
      else if c = '(' then (tokenizeFuel fuel cs).map (fun ts => .lparen :: ts)
      else if c = ')' then (tokenizeFuel fuel cs).map (fun ts => .rparen :: ts)
      else .error "Invalid or unexpected token"

def tokenize (l : List Char) : Except String (List Tok) :=
  tokenizeFuel (l.length + 1) l

/-- AST of the JS expression subset reachable from the sanitized character
set: numeric literals, the four binary operators, unary sign, and call
expressions (whose argument list, commas being stripped, is empty or a
single expression). -/
inductive Expr where
  | num (q : QV)
  | add (a b : Expr)
  | sub (a b : Expr)
  | mul (a b : Expr)
  | div (a b : Expr)
  | neg (a : Expr)
  | pos (a : Expr)
  | call0 (callee : Expr)
  | call1 (callee : Expr) (arg : Expr)

mutual

/-- `AdditiveExpression`, left-associative. -/
def parseAdd (fuel : Nat) (ts : List Tok) : Except String (Expr × List Tok) :=
  match fuel with
  | 0 => .error "expression too deeply nested"
  | fuel + 1 => do
      let (e, ts1) ← parseMul fuel ts
      parseAddLoop fuel e ts1

def parseAddLoop (fuel : Nat) (acc : Expr) (ts : List Tok) :
    Except String (Expr × List Tok) :=
  match fuel with
  | 0 => .error "expression too deeply nested"
  | fuel + 1 =>
      match ts with
      | .plus :: ts1 => do
          let (e, ts2) ← parseMul fuel ts1
          parseAddLoop fuel (.add acc e) ts2
      | .minus :: ts1 => do
          let (e, ts2) ← parseMul fuel ts1
          parseAddLoop fuel (.sub acc e) ts2
      | _ => .ok (acc, ts)

/-- `MultiplicativeExpression`, left-associative. -/
def parseMul (fuel : Nat) (ts : List Tok) : Except String (Expr × List Tok) :=
  match fuel with
  | 0 => .error "expression too deeply nested"
  | fuel + 1 => do
      let (e, ts1) ← parseUnary fuel ts
      parseMulLoop fuel e ts1

def parseMulLoop (fuel : Nat) (acc : Expr) (ts : List Tok) :
    Except String (Expr × List Tok) :=
  match fuel with
  | 0 => .error "expression too deeply nested"
  | fuel + 1 =>
      match ts with
      | .star :: ts1 => do
          let (e, ts2) ← parseUnary fuel ts1
          parseMulLoop fuel (.mul acc e) ts2
      | .slash :: ts1 => do
          let (e, ts2) ← parseUnary fuel ts1
          parseMulLoop fuel (.div acc e) ts2
      | _ => .ok (acc, ts)

/-- `UnaryExpression`: prefix `+`/`-` bind looser than calls, tighter than
`*`. -/
def parseUnary (fuel : Nat) (ts : List Tok) : Except String (Expr × List Tok) :=
  match fuel with
  | 0 => .error "expression too deeply nested"
  | fuel + 1 =>
      match ts with
      | .plus :: ts1 => (parseUnary fuel ts1).map (fun p => (.pos p.1, p.2))
      | .minus :: ts1 => (parseUnary fuel ts1).map (fun p => (.neg p.1, p.2))
      | _ => parsePostfix fuel ts

/-- `CallExpression`: a primary followed by argument lists.  A `.` after a
primary would need an identifier property name, which the sanitizer cannot
produce, so it is a syntax error. -/
def parsePostfix (fuel : Nat) (ts : List Tok) : Except String (Expr × List Tok) :=
  match fuel with
  | 0 => .error "expression too deeply nested"
  | fuel + 1 => do
      let (e, ts1) ← parsePrimary fuel ts
      parsePostfixLoop fuel e ts1

def parsePostfixLoop (fuel : Nat) (acc : Expr) (ts : List Tok) :
    Except String (Expr × List Tok) :=
  match fuel with
  | 0 => .error "expression too deeply nested"
  | fuel + 1 =>
      match ts with
      | .lparen :: .rparen :: ts1 => parsePostfixLoop fuel (.call0 acc) ts1
      | .lparen :: ts1 => do
          let (a, ts2) ← parseAdd fuel ts1
          match ts2 with
          | .rparen :: ts3 => parsePostfixLoop fuel (.call1 acc a) ts3
          | _ => .error "missing ) after argument list"
      | .dot :: _ => .error "Unexpected token '.'"
      | _ => .ok (acc, ts)

def parsePrimary (fuel : Nat) (ts : List Tok) : Except String (Expr × List Tok) :=
  match fuel with
  | 0 => .error "expression too deeply nested"
  | fuel + 1 =>
      match ts with
      | .num q :: ts1 => .ok (.num q, ts1)
      | .lparen :: ts1 => do
          let (e, ts2) ← parseAdd fuel ts1
          match ts2 with
          | .rparen :: ts3 => .ok (e, ts3)
          | _ => .error "missing ) in parenthesized expression"
      | _ => .error "Unexpected token"

end

/-- Evaluate the expression with JS number semantics.  Call expressions
evaluate callee then arguments and then throw, since every value in this
language is a number and numbers are not callable. -/
def evalExpr : Expr → Except String NumV
  | .num q => .ok (.fin q)
  | .add a b => do
      let x ← evalExpr a
      let y ← evalExpr b
      .ok (x.add y)
  | .sub a b => do
      let x ← evalExpr a
      let y ← evalExpr b
      .ok (x.sub y)
  | .mul a b => do
      let x ← evalExpr a
      let y ← evalExpr b
      .ok (x.mul y)
  | .div a b => do
      let x ← evalExpr a
      let y ← evalExpr b
      .ok (x.div y)
  | .neg a => (evalExpr a).map NumV.neg
  | .pos a => evalExpr a
  | .call0 c => do
      let v ← evalExpr c
      .error (v.render ++ " is not a function")
  | .call1 c arg => do
      let v ← evalExpr c
      let _ ← evalExpr arg
      .error (v.render ++ " is not a function")

/-- Parse a complete expression; the fuel amply covers the
recursive-descent depth for the token list, so the fuel-exhaustion error
is unreachable. -/
def parseCalcProgram (ts : List Tok) : Except String Expr := do
  let (e, rest) ← parseAdd (5 * ts.length + 5) ts
  match rest with
  | [] => .ok e
  | _ => .error "Unexpected token after expression"

/-- The dynamic evaluation the calculator performs:
`Function("'use strict'; return (" + sanitized + ")")()` — lex and parse
the parenthesized sanitized text, then evaluate it. -/
def evalCalcSource (sanitized : String) : Except String NumV := do
  let ts ← tokenize ('(' :: sanitized.toList ++ [')'])
  let e ← parseCalcProgram ts
  evalExpr e

/-- `executeCalculator` from `src/services/toolExecutor.js`: destructure
`expression` from the argument bag (outside the try block), then inside
the try sanitize, reject an empty sanitized string, evaluate, and re-wrap
any thrown message as `Calculation failed: …`.  Success carries the
original expression and the numeric result.  Messages of engine-thrown
errors (destructuring, `.replace` on a non-string) are modelled texts. -/
def executeCalculator (args : JValue) : Except String (String × NumV) :=
  match args with
  | .undefined => .error "Cannot destructure property 'expression' of 'args' as it is undefined."
  | .null => .error "Cannot destructure property 'expression' of 'args' as it is null."
  | _ =>
    match
      ((match args.getField "expression" with
       | .str expression =>
           let sanitized := sanitizeExpression expression
           if sanitized = "" then .error "Invalid mathematical expression"
           else (evalCalcSource sanitized).map (fun v => (expression, v))
       | .undefined => .error "Cannot read properties of undefined (reading 'replace')"
       | _ => .error "expression.replace is not a function") : Except String (String × NumV)) with
    | .ok r => .ok r
    | .error m => .error ("Calculation failed: " ++ m)

/-- Ascending insertion sort: the value sequence produced by
`[...numbers].sort((a, b) => a - b)` on numbers (duplicates are equal
values, so any ascending sort yields the same list). -/
def insertSorted (x : QV) : List QV → List QV
  | [] => [x]
  | y :: ys => if x.ble y then x :: y :: ys else y :: insertSorted x ys

def sortAsc (l : List QV) : List QV := l.foldr insertSorted []

/-- The success object of `executeDataAnalyzer` (its literal also carries
`success: true`, which this constructor itself denotes).  Its real-valued
`standardDeviation` field is the derived view
`AnalyzerSuccess.standardDeviation` below. -/
structure AnalyzerSuccess where
  analysis_type : JValue
  count : Nat
  sum : QV
  mean : QV
  median : QV
  min : QV
  max : QV
  range : QV
  variance : QV

/-- The `standardDeviation` field of the returned object:
`Math.sqrt(variance)`, real-valued and therefore kept as a derived
noncomputable view of the record. -/
noncomputable def AnalyzerSuccess.standardDeviation (a : AnalyzerSuccess) : ℝ :=
  Real.sqrt (a.variance.toRat : ℝ)

/-- `executeDataAnalyzer` from `src/services/toolExecutor.js`: destructure
`data` and `analysis_type` (default `'summary'`), require a non-empty
array, coerce entries (`typeof d === 'number' ? d : parseFloat(d)`,
dropping NaN), require at least one number, and compute the statistics
(population variance: divisor is the count). -/
def executeDataAnalyzer (args : JValue) : Except String AnalyzerSuccess :=
  match args with
  | .undefined => .error "Cannot destructure property 'data' of 'args' as it is undefined."
  | .null => .error "Cannot destructure property 'data' of 'args' as it is null."
  | _ =>
    let analysisType :=
      match args.getField "analysis_type" with
      | .undefined => .str "summary"
      | v => v
    match args.getField "data" with
    | .arr elems =>
      if elems.isEmpty then .error "Data must be a non-empty array"
      else
        let numbers := elems.filterMap (fun d =>
          match d with
          | .num q => some q
          | _ => jsParseFloatValue d)
        match numbers with
        | [] => .error "No valid numeric data found"
        | _ :: _ =>
          let sorted := sortAsc numbers
          let n := numbers.length
          let sum := numbers.foldl (fun acc v => acc.add v) (0 : QV)
          let mean := sum.div (QV.ofNat n)
          let median :=
            if n % 2 = 0 then
              ((sorted.getD (n / 2 - 1) 0).add (sorted.getD (n / 2) 0)).div 2
            else sorted.getD (n / 2) 0
          let minV := sorted.getD 0 0
          let maxV := sorted.getD (n - 1) 0
          let variance :=
            (numbers.foldl (fun acc v => acc.add ((v.sub mean).mul (v.sub mean))) (0 : QV)).div
              (QV.ofNat n)
          .ok ⟨analysisType, n, sum, mean, median, minV, maxV, maxV.sub minV, variance⟩
    | _ => .error "Data must be a non-empty array"

/-- A stored tool definition, as far as the invoker consumes one; the
schema fields (description, parameters, return type) only feed prompt
text and are omitted. -/
structure ToolDef where
  name : String
  codeImplementation : Option String

/-- The guard `tool.codeImplementation && tool.codeImplementation.trim()`:
a custom body is used iff the field is present and contains a
non-whitespace character. -/
def ToolDef.hasCustomCode (t : ToolDef) : Bool :=
  match t.codeImplementation with
  | some s => s.toList.any (fun c => !(isJsSpace c))
  | none => false

/-- A tool invocation's success payload, per dispatch branch. -/
inductive ToolOk where
  | custom (v : JValue)
  | calc (expression : String) (result : NumV)
  | analyzer (a : AnalyzerSuccess)
  | platform (v : JValue)

/-- What `executeTool` hands back: a branch's success payload, or the
normalized failure shape `\x7b error: true, message, toolName \x7d`. -/
inductive ToolResult where
  | ok (v : ToolOk)
  | err (message : String) (toolName : String)

/-- The platform services `toolExecutor.js`/`agentExecutor.js` call but do
not define: the `AsyncFunction` dynamic-code evaluator, the
`fetch`-backed api_caller interaction, `Date`/`Intl` for
current_datetime, `crypto` for uuid_generator, and
`JSON.parse`/`JSON.stringify`.  Each is an explicit parameter;
`Except.error` models a thrown (or rejected) error carrying its message. -/
structure JsPlatform where
  compileBody : String → Except String (Option (JValue → Except String JValue))
  apiCaller : JValue → Except String JValue
  currentDatetime : JValue → Except String JValue
  uuidGenerator : Except String JValue
  jsonParse : String → Option JValue
  stringify : ToolResult → String

/-- `executeCustomCode`: compile the body through the AsyncFunction
wrapper (whose wrapped code throws `Code must define an "execute"
function` when no entry point emerges), run the entry point on the
argument bag, and re-wrap any thrown message as
`Custom code execution failed: …`. -/
def executeCustomCode (p : JsPlatform) (tool : ToolDef) (args : JValue) :
    Except String JValue :=
  match p.compileBody (tool.codeImplementation.getD "") with
  | .error m => .error ("Custom code execution failed: " ++ m)
  | .ok none => .error ("Custom code execution failed: Code must define an \"execute\" function")
  | .ok (some f) =>
      match f args with
      | .error m => .error ("Custom code execution failed: " ++ m)
      | .ok v => .ok v

/-- The try-block body of `executeTool`: custom code when a non-blank body
is present, otherwise built-in dispatch by name, otherwise the
not-implemented throw. -/
def executeToolInner (p : JsPlatform) (tool : ToolDef) (args : JValue) :
    Except String ToolOk :=
  if tool.hasCustomCode then
    (executeCustomCode p tool args).map ToolOk.custom
  else
    match tool.name with
    | "calculator" => (executeCalculator args).map (fun r => ToolOk.calc r.1 r.2)
    | "data_analyzer" => (executeDataAnalyzer args).map ToolOk.analyzer
    | "api_caller" => (p.apiCaller args).map ToolOk.platform
    | "current_datetime" => (p.currentDatetime args).map ToolOk.platform
    | "uuid_generator" => p.uuidGenerator.map ToolOk.platform
    | n => .error ("Tool '" ++ n ++ "' is not implemented and has no custom code")

/-- `executeTool` from `src/services/toolExecutor.js`: every throw from
the try block is caught and converted to the structured failure shape;
the caller always receives a value. -/
def executeTool (p : JsPlatform) (tool : ToolDef) (args : JValue) : ToolResult :=
  match executeToolInner p tool args with
  | .ok v => .ok v
  | .error m => .err m tool.name

/-- Index of the first occurrence of `lit` as a contiguous sublist. -/
def findLit (lit : List Char) : List Char → Option Nat
  | [] => if lit.isEmpty then some 0 else none
  | c :: cs =>
      if lit.isPrefixOf (c :: cs) then some 0
      else (findLit lit cs).map (fun i => i + 1)

/-- One lazy-gap-then-literal step (`[\s\S]*?lit`) of the call regex:
consume through the first occurrence of `lit`, returning the consumed
count and the remainder.  For a chain of such steps, backtracking lazy
matching is exactly first-occurrence search: where the first occurrence
fails, every later one fails too, because the continuation only searches
further right. -/
def consumeThrough (lit : List Char) (rest : List Char) : Option (Nat × List Char) :=
  (findLit lit rest).map (fun i => (i + lit.length, rest.drop (i + lit.length)))

/-- Maximal run of non-quote characters. -/
def spanNonQuote : List Char → List Char × List Char
  | [] => ([], [])
  | c :: cs =>
      if c = '"' then ([], c :: cs)
      else
        let p := spanNonQuote cs
        (c :: p.1, p.2)

/-- The `[\s\S]*?"([^"]+)"` step: consume through the first `"` that opens
a non-empty run of non-quote characters closed by another `"`.  A quote
followed directly by a quote, or never closed, cannot satisfy the greedy
`[^"]+"` tail, and lazy backtracking moves the gap past it — which is
what the recursion does. -/
def consumeQuoted : List Char → Option (Nat × List Char)
  | [] => none
  | c :: cs =>
      if c = '"' then
        let p := spanNonQuote cs
        match p.1, p.2 with
        | _ :: _, _ :: rest2 => some (1 + p.1.length + 1, rest2)
        | _, _ => (consumeQuoted cs).map (fun r => (r.1 + 1, r.2))
      else (consumeQuoted cs).map (fun r => (r.1 + 1, r.2))

/-- After the opening `\x7b` of the call regex
`\x7b[\s\S]*?"function"[\s\S]*?:[\s\S]*?"([^"]+)"[\s\S]*?,[\s\S]*?"arguments"[\s\S]*?:[\s\S]*?\x7b[\s\S]*?\x7d[\s\S]*?\x7d`:
the chained searches, returning how many characters they consume. -/
def chainAfterBrace (rest : List Char) : Option Nat := do
  let s1 ← consumeThrough "\"function\"".toList rest
  let s2 ← consumeThrough [':'] s1.2
  let s3 ← consumeQuoted s2.2
  let s4 ← consumeThrough [','] s3.2
  let s5 ← consumeThrough "\"arguments\"".toList s4.2
  let s6 ← consumeThrough [':'] s5.2
  let s7 ← consumeThrough ['\x7b'] s6.2
  let s8 ← consumeThrough ['\x7d'] s7.2
  let s9 ← consumeThrough ['\x7d'] s8.2
  some (s1.1 + s2.1 + s3.1 + s4.1 + s5.1 + s6.1 + s7.1 + s8.1 + s9.1)

/-- One `exec` of the global call regex against `s`: a successful match
starts at the first `\x7b` — if the chain fails there, it fails from every
later start, each search being monotone in its start position — and spans
`[start, stop)`. -/
def findCallMatch (s : List Char) : Option (Nat × Nat) :=
  match findLit ['\x7b'] s with
  | none => none
  | some i =>
      match chainAfterBrace (s.drop (i + 1)) with
      | none => none
      | some consumed => some (i, i + 1 + consumed)

/-- All matches of one global pass (`exec` looped with `lastIndex`
advancing to each match's end): absolute offset and matched text.  Fuel
`s.length + 1` can never run out, since every match consumes at least one
character. -/
def regexMatchesFuel (fuel : Nat) (s : List Char) (offset : Nat) :
    List (Nat × String) :=
  match fuel with
  | 0 => []
  | fuel + 1 =>
      match findCallMatch s with
      | none => []
      | some (i, stop) =>
          (offset + i, String.mk ((s.drop i).take (stop - i))) ::
            regexMatchesFuel fuel (s.drop stop) (offset + stop)

def regexMatches (s : List Char) : List (Nat × String) :=
  regexMatchesFuel (s.length + 1) s 0

/-- A parsed function-call request: the `function` and `arguments`
properties of the JSON-parsed match (either may be `undefined` for odd
but parseable matches). -/
structure FnCall where
  name : JValue
  arguments : JValue

/-- The `while ((match = functionCallRegex.exec(text)) !== null)` loop of
`parseFunctionCalls`: `JSON.parse` each match — a failure is logged and
the match skipped — and push `\x7b name, arguments \x7d`. -/
def parseCallsLoopFuel (fuel : Nat) (jp : String → Option JValue) (s : List Char)
    (acc : List FnCall) : List FnCall :=
  match fuel with
  | 0 => acc
  | fuel + 1 =>
      match findCallMatch s with
      | none => acc
      | some (i, stop) =>
          let m := String.mk ((s.drop i).take (stop - i))
          let acc2 :=
            match jp m with
            | some v => acc ++ [⟨v.getField "function", v.getField "arguments"⟩]
            | none => acc
          parseCallsLoopFuel fuel jp (s.drop stop) acc2

/-- `parseFunctionCalls` from `src/services/toolExecutor.js`,
parameterized by the platform's `JSON.parse` (restricted to the calls the
loop makes). -/
def parseFunctionCalls (jp : String → Option JValue) (text : String) : List FnCall :=
  parseCallsLoopFuel (text.toList.length + 1) jp text.toList []

/-- One transcript turn; every turn the loop builds has exactly one part,
so `parts: [\x7b text \x7d]` collapses to one text. -/
structure Turn where
  role : String
  text : String
  deriving DecidableEq

/-- One entry of the tool-execution log. -/
structure ToolExecRecord where
  iteration : Nat
  tool : String
  arguments : JValue
  result : ToolResult

/-- The object `executeAgentWithTools` resolves with on each of its three
exits (`error` is absent on the success exit, `result` null on the
failure exit). -/
structure AgentRunResult where
  success : Bool
  error : Option String
  result : Option String
  iterations : Nat
  toolExecutions : List ToolExecRecord
  conversationHistory : List Turn

def MAX_ITERATIONS : Nat := 10

/-- `conversationHistory[conversationHistory.length - 1]?.parts[0]?.text || null`. -/
def lastTurnText (history : List Turn) : Option String :=
  match history.getLast? with
  | none => none
  | some t => if t.text = "" then none else some t.text

/-- The tool-result transcript turn pushed after one executed call. -/
def toolResultTurn (p : JsPlatform) (toolName : String) (r : ToolResult) : Turn :=
  ⟨"user",
    "Tool \"" ++ toolName ++ "\" execution result:\n" ++ p.stringify r ++
      "\n\nPlease continue with the task using this information."⟩

/-- The `for (const call of functionCalls)` body: resolve the name among
the agent's tools (`t.name === call.name`); a miss warns and `continue`s
— no execution, no log record, no transcript turn; a hit executes the
tool and appends exactly one log record and one tool-result turn. -/
def processCalls (p : JsPlatform) (tools : List ToolDef) (iteration : Nat)
    (calls : List FnCall) (history : List Turn) (log : List ToolExecRecord) :
    List Turn × List ToolExecRecord :=
  match calls with
  | [] => (history, log)
  | call :: rest =>
      match tools.find? (fun t => nameEq t.name call.name) with
      | none => processCalls p tools iteration rest history log
      | some tool =>
          let r := executeTool p tool call.arguments
          processCalls p tools iteration rest
            (history ++ [toolResultTurn p tool.name r])
            (log ++ [⟨iteration, tool.name, call.arguments, r⟩])

/-- The `while (iteration < MAX_ITERATIONS)` loop of
`executeAgentWithTools`, in structural form: `remaining` counts the loop
passes still allowed (`executeAgentWithTools` starts it at the ceiling,
so `remaining = MAX_ITERATIONS - iteration` throughout).  `callLLM`
models `callGeminiAPI` (transcript in, reply text out, `.error` for a
throw); a falsy reply text re-creates the `Invalid response from LLM`
throw; the `catch` turns any throw into the failure exit. -/
def runLoopAux (p : JsPlatform) (callLLM : List Turn → Except String String)
    (tools : List ToolDef) (remaining iteration : Nat)
    (history : List Turn) (log : List ToolExecRecord) : AgentRunResult :=
  match remaining with
  | 0 =>
      ⟨false, some "Max iterations reached. Task may be incomplete.",
        lastTurnText history, iteration, log, history⟩
  | remaining + 1 =>
      let iter := iteration + 1
      match callLLM history with
      | .error e => ⟨false, some e, none, iter, log, history⟩
      | .ok text =>
          if text = "" then
            ⟨false, some "Invalid response from LLM", none, iter, log, history⟩
          else
            let history2 := history ++ [⟨"model", text⟩]
            let calls := parseFunctionCalls p.jsonParse text
            if calls.isEmpty then
              ⟨true, none, some text, iter, log, history2⟩
            else
              let next := processCalls p tools iter calls history2 log
              runLoopAux p callLLM tools remaining iter next.1 next.2

/-- `executeAgentWithTools`: seed the transcript with the assembled
system prompt plus user request (prompt assembly and tool loading feed
only this seed text and `tools`, so they are taken as inputs), then run
the loop from iteration 0 under the fixed ceiling. -/
def executeAgentWithTools (p : JsPlatform) (callLLM : List Turn → Except String String)
    (tools : List ToolDef) (initialText : String) : AgentRunResult :=
  runLoopAux p callLLM tools MAX_ITERATIONS 0 [⟨"user", initialText⟩] []

/-- The four Gemini keys `extractGeminiParameters` can populate; a `none`
field models an absent property. -/
structure GeminiParams where
  temperature : Option JValue := none
  topK : Option JValue := none
  topP : Option JValue := none
  maxOutputTokens : Option JValue := none

/-- `geminiParams[geminiKey] = parseFloat(value) || value`: the parsed
number when it is truthy (non-zero, non-NaN), else the original value. -/
def storeParam (v : JValue) : JValue :=
  match jsParseFloatValue v with
  | some q => if q.num = 0 then v else .num q
  | none => v

/-- `key.toLowerCase()` for the parameter keys (ASCII, which the keys
are; `String.toLower` itself recurses on byte positions and does not
reduce in the kernel). -/
def lowerAscii (s : String) : String :=
  String.mk (s.toList.map (fun c =>
    if 65 ≤ c.toNat && c.toNat ≤ 90 then Char.ofNat (c.toNat + 32) else c))

/-- `extractGeminiParameters` from `src/services/agentExecutor.js`:
lowercased keys map through `temperature/maxtokens/topp/topk`; later
entries overwrite earlier ones. -/
def extractGeminiParameters (customParams : List (String × JValue)) : GeminiParams :=
  customParams.foldl
    (fun acc kv =>
      match lowerAscii kv.1 with
      | "temperature" => { acc with temperature := some (storeParam kv.2) }
      | "maxtokens" => { acc with maxOutputTokens := some (storeParam kv.2) }
      | "topp" => { acc with topP := some (storeParam kv.2) }
      | "topk" => { acc with topK := some (storeParam kv.2) }
      | _ => acc)
    {}

/-- The `generationConfig` object sent to the model. -/
structure GenerationConfig where
  temperature : JValue
  topK : JValue
  topP : JValue
  maxOutputTokens : JValue

/-- `x || d` on an optionally-present property. -/
def jsOr (v : Option JValue) (d : JValue) : JValue :=
  match v with
  | some x => if x.truthy then x else d
  | none => d

/-- The `generationConfig` literal in `callGeminiAPI`:
`temperature || 0.7`, `topK || 40`, `topP || 0.95`,
`maxOutputTokens || 8000`. -/
def buildGenerationConfig (gp : GeminiParams) : GenerationConfig :=
  ⟨jsOr gp.temperature (.num (QV.norm 7 10)),
   jsOr gp.topK (.num 40),
   jsOr gp.topP (.num (QV.norm 95 100)),
   jsOr gp.maxOutputTokens (.num 8000)⟩

/-- A model reply consisting of exactly one well-formed call to a tool
named `echo` with an empty argument object, used to instantiate witnesses
and counterexamples. -/
def demoCallText : String :=
  "\x7b\"function\": \"echo\", \"arguments\": \x7b\x7d\x7d"

/-- What `JSON.parse` returns on `demoCallText`. -/
def demoCallValue : JValue :=
  .obj [("function", .str "echo"), ("arguments", .obj [])]

/-- A concrete platform for witnesses: dynamic bodies compile to an entry
point returning `'ok'`, the I/O built-ins reject, `JSON.parse` agrees
with the real parser on the one call text the runs exercise, and
`JSON.stringify` renders a fixed placeholder. -/
def demoPlatform : JsPlatform :=
  ⟨fun _ => .ok (some (fun _ => .ok (.str "ok"))),
   fun _ => .error "network unavailable",
   fun _ => .error "clock unavailable",
   .error "crypto unavailable",
   fun s => if s = demoCallText then some demoCallValue else none,
   fun _ => "RESULT"⟩

/-- A resolvable custom tool named `echo` with a non-blank body. -/
def echoTool : ToolDef := ⟨"echo", some "execute = async (args) => 'ok'"⟩

/-- The log record one parsed call contributes (`none` when its name does
not resolve among the agent's tools). -/
def callRecord (p : JsPlatform) (tools : List ToolDef) (iteration : Nat)
    (call : FnCall) : Option ToolExecRecord :=
  (tools.find? (fun t => nameEq t.name call.name)).map
    (fun tool => ⟨iteration, tool.name, call.arguments, executeTool p tool call.arguments⟩)

/-- The transcript turn one parsed call contributes (`none` when its name
does not resolve). -/
def callTurn (p : JsPlatform) (tools : List ToolDef) (call : FnCall) : Option Turn :=
  (tools.find? (fun t => nameEq t.name call.name)).map
    (fun tool => toolResultTurn p tool.name (executeTool p tool call.arguments))

theorem processCalls_eq (p : JsPlatform) (tools : List ToolDef) (iteration : Nat) :
    ∀ (calls : List FnCall) (history : List Turn) (log : List ToolExecRecord),
      processCalls p tools iteration calls history log =
        (history ++ calls.filterMap (callTurn p tools),
         log ++ calls.filterMap (callRecord p tools iteration)) := by
  intro calls
  induction calls with
  | nil => intro history log; simp [processCalls]
  | cons call rest ih =>
      intro history log
      cases hf : tools.find? (fun t => nameEq t.name call.name) with
      | none =>
          simp [processCalls, hf, callTurn, callRecord, ih history log]
      | some tool =>
          simp [processCalls, hf, callTurn, callRecord,
            ih (history ++ [toolResultTurn p tool.name (executeTool p tool call.arguments)])
              (log ++ [⟨iteration, tool.name, call.arguments,
                executeTool p tool call.arguments⟩])]

theorem runLoopAux_iterations_le (p : JsPlatform)
    (callLLM : List Turn → Except String String) (tools : List ToolDef) :
    ∀ (remaining iteration : Nat) (history : List Turn) (log : List ToolExecRecord),
      (runLoopAux p callLLM tools remaining iteration history log).iterations ≤
        remaining + iteration := by
  intro remaining
  induction remaining with
  | zero => intro iteration history log; simp [runLoopAux]
  | succ r ih =>
      intro iteration history log
      cases hc : callLLM history with
      | error e =>
          simp [runLoopAux, hc]
          omega
      | ok text =>
          by_cases ht : text = ""
          · simp [runLoopAux, hc, ht]
            omega
          · by_cases hp : (parseFunctionCalls p.jsonParse text).isEmpty
            · simp [runLoopAux, hc, ht, hp]
              omega
            · simp [runLoopAux, hc, ht, hp]
              refine Nat.le_trans (ih (iteration + 1) _ _) (by omega)

theorem runLoopAux_exhausts (p : JsPlatform)
    (callLLM : List Turn → Except String String) (tools : List ToolDef)
    (H : ∀ hist, ∃ text, callLLM hist = .ok text ∧ text ≠ "" ∧
        ∃ c ∈ parseFunctionCalls p.jsonParse text,
          (tools.find? (fun t => nameEq t.name c.name)).isSome = true) :
    ∀ (remaining iteration : Nat) (history : List Turn) (log : List ToolExecRecord),
      (runLoopAux p callLLM tools remaining iteration history log).success = false ∧
      (runLoopAux p callLLM tools remaining iteration history log).error =
        some "Max iterations reached. Task may be incomplete." ∧
      (runLoopAux p callLLM tools remaining iteration history log).iterations =
        remaining + iteration := by
  intro remaining
  induction remaining with
  | zero => intro iteration history log; simp [runLoopAux]
  | succ r ih =>
      intro iteration history log
      obtain ⟨text, hc, ht, c, hmem, _⟩ := H history
      have hne : parseFunctionCalls p.jsonParse text ≠ [] := by
        intro h0
        rw [h0] at hmem
        exact absurd hmem (List.not_mem_nil c)
      have hp : ¬ ((parseFunctionCalls p.jsonParse text).isEmpty = true) := by
        simpa [List.isEmpty_iff] using hne
      simp [runLoopAux, hc, ht, hp]
      refine ⟨(ih (iteration + 1) _ _).1, (ih (iteration + 1) _ _).2.1, ?_⟩
      rw [(ih (iteration + 1) _ _).2.2]
      omega

/-- C1: a model reply from which the parser extracts zero calls ends the
run on that iteration in the DONE outcome: `success = true`, the reply
text as the final result, the iteration counter just incremented, and the
log and transcript accumulated so far (the transcript including the reply
itself as a model-origin turn). -/
theorem done_on_zero_calls
    (p : JsPlatform) (callLLM : List Turn → Except String String)
    (tools : List ToolDef) (remaining iteration : Nat)
    (history : List Turn) (log : List ToolExecRecord) (text : String)
    (hrem : 0 < remaining)
    (hcall : callLLM history = .ok text)
    (hne : text ≠ "")
    (hparse : parseFunctionCalls p.jsonParse text = []) :
    runLoopAux p callLLM tools remaining iteration history log =
      ⟨true, none, some text, iteration + 1, log, history ++ [⟨"model", text⟩]⟩ := by
  cases remaining with
  | zero => omega
  | succ r => simp [runLoopAux, hcall, hne, hparse]

theorem done_on_zero_calls_witness :
    runLoopAux demoPlatform (fun _ => .ok "done") [] MAX_ITERATIONS 0
        [⟨"user", "seed"⟩] [] =
      ⟨true, none, some "done", 1, [], [⟨"user", "seed"⟩, ⟨"model", "done"⟩]⟩ :=
  done_on_zero_calls demoPlatform (fun _ => .ok "done") [] MAX_ITERATIONS 0
    [⟨"user", "seed"⟩] [] "done" (by decide) rfl (by decide) rfl

/-- C2: the iteration counter of a run never exceeds the fixed ceiling of
10, and when every reply carries at least one resolvable function call
the run ends EXHAUSTED (`success = false`, the max-iterations error) with
the counter exactly 10. -/
theorem iteration_ceiling (p : JsPlatform)
    (callLLM : List Turn → Except String String) (tools : List ToolDef)
    (initialText : String) :
    (executeAgentWithTools p callLLM tools initialText).iterations ≤ MAX_ITERATIONS ∧
    ((∀ hist, ∃ text, callLLM hist = .ok text ∧ text ≠ "" ∧
        ∃ c ∈ parseFunctionCalls p.jsonParse text,
          (tools.find? (fun t => nameEq t.name c.name)).isSome = true) →
      (executeAgentWithTools p callLLM tools initialText).success = false ∧
      (executeAgentWithTools p callLLM tools initialText).error =
        some "Max iterations reached. Task may be incomplete." ∧
      (executeAgentWithTools p callLLM tools initialText).iterations = MAX_ITERATIONS) := by
  constructor
  · simpa using runLoopAux_iterations_le p callLLM tools MAX_ITERATIONS 0
      [⟨"user", initialText⟩] []
  · intro H
    simpa using runLoopAux_exhausts p callLLM tools H MAX_ITERATIONS 0
      [⟨"user", initialText⟩] []

theorem iteration_ceiling_witness :
    (executeAgentWithTools demoPlatform (fun _ => .ok demoCallText) [echoTool]
        "seed").success = false ∧
    (executeAgentWithTools demoPlatform (fun _ => .ok demoCallText) [echoTool]
        "seed").error = some "Max iterations reached. Task may be incomplete." ∧
    (executeAgentWithTools demoPlatform (fun _ => .ok demoCallText) [echoTool]
        "seed").iterations = MAX_ITERATIONS :=
  (iteration_ceiling demoPlatform (fun _ => .ok demoCallText) [echoTool] "seed").2
    (fun _ => ⟨demoCallText, rfl, by decide,
      ⟨.str "echo", .obj []⟩, List.Mem.head _, rfl⟩)

/-- The five built-in tool names `executeTool` dispatches on. -/
def builtinToolNames : List String :=
  ["calculator", "data_analyzer", "api_caller", "current_datetime", "uuid_generator"]

/-- C3: invoking a tool never throws to the caller — the result is always
either a success payload or the structured failure shape carrying the
tool's name — and on the paths the claim singles out (a custom body that
throws, a body with no entry point, an unimplemented tool) the failure
message is the wrapped thrown message. -/
theorem executeTool_never_throws (p : JsPlatform) (tool : ToolDef) (args : JValue) :
    ((∃ v, executeTool p tool args = ToolResult.ok v) ∨
      (∃ m, executeTool p tool args = ToolResult.err m tool.name)) ∧
    (∀ g m, tool.hasCustomCode = true →
      p.compileBody (tool.codeImplementation.getD "") = .ok (some g) →
      g args = .error m →
      executeTool p tool args =
        ToolResult.err ("Custom code execution failed: " ++ m) tool.name) ∧
    (tool.hasCustomCode = true →
      p.compileBody (tool.codeImplementation.getD "") = .ok none →
      executeTool p tool args =
        ToolResult.err
          "Custom code execution failed: Code must define an \"execute\" function"
          tool.name) ∧
    (tool.hasCustomCode = false → tool.name ∉ builtinToolNames →
      executeTool p tool args =
        ToolResult.err ("Tool '" ++ tool.name ++ "' is not implemented and has no custom code")
          tool.name) := by
  refine ⟨?_, ?_, ?_, ?_⟩
  · cases h : executeToolInner p tool args with
    | ok v => exact Or.inl ⟨v, by simp [executeTool, h]⟩
    | error m => exact Or.inr ⟨m, by simp [executeTool, h]⟩
  · intro g m hcc hcb hg
    simp [executeTool, executeToolInner, executeCustomCode, Except.map, hcc, hcb, hg]
  · intro hcc hcb
    simp [executeTool, executeToolInner, executeCustomCode, Except.map, hcc, hcb]
  · intro hcc hname
    simp only [builtinToolNames, List.mem_cons, List.not_mem_nil, or_false,
      not_or] at hname
    obtain ⟨h1, h2, h3, h4, h5⟩ := hname
    simp [executeTool, executeToolInner, hcc, h1, h2, h3, h4, h5]

theorem executeTool_never_throws_witness :
    executeTool demoPlatform ⟨"sentiment_analyzer", none⟩ (.obj []) =
      ToolResult.err
        "Tool 'sentiment_analyzer' is not implemented and has no custom code"
        "sentiment_analyzer" :=
  (executeTool_never_throws demoPlatform ⟨"sentiment_analyzer", none⟩ (.obj [])).2.2.2
    rfl (by decide)

/-- C4 counterexample: a tool named `calculator` whose executable body is
explicitly blank IS dispatched to the built-in calculator — it returns the
built-in's success payload, not a DefinitionError-shaped failure. -/
theorem blank_builtin_dispatch_counterexample :
    executeTool demoPlatform ⟨"calculator", some ""⟩
        (.obj [("expression", .str "2 + 2")]) =
      ToolResult.ok (.calc "2 + 2" (.fin 4)) := rfl

/-- C4 (amended): a tool with an empty or absent executable body whose
name is NOT a built-in name always yields the not-implemented structured
failure; but when its name matches a built-in (such as `calculator`), the
blank body routes the call to that built-in's implementation instead. -/
theorem blank_body_dispatch (p : JsPlatform) (tool : ToolDef) (args : JValue)
    (hblank : tool.hasCustomCode = false) :
    (tool.name ∉ builtinToolNames →
      executeTool p tool args =
        ToolResult.err ("Tool '" ++ tool.name ++ "' is not implemented and has no custom code")
          tool.name) ∧
    (tool.name = "calculator" →
      executeToolInner p tool args =
        (executeCalculator args).map (fun r => ToolOk.calc r.1 r.2)) := by
  constructor
  · exact (executeTool_never_throws p tool args).2.2.2 hblank
  · intro hname
    simp [executeToolInner, hblank, hname]

theorem blank_body_dispatch_witness :
    executeToolInner demoPlatform ⟨"calculator", some ""⟩
        (.obj [("expression", .str "2 + 2")]) =
      (executeCalculator (.obj [("expression", .str "2 + 2")])).map
        (fun r => ToolOk.calc r.1 r.2) :=
  (blank_body_dispatch demoPlatform ⟨"calculator", some ""⟩
      (.obj [("expression", .str "2 + 2")]) rfl).2 rfl

/-- C5 counterexample: on `"2 + 2; alert(1)"` the sanitizer keeps the
digits and parentheses of `alert(1)`, leaving `"2 + 2 (1)"`; its
evaluation parses `2 (1)` as a call expression and throws (a number is
not callable), so the calculator returns a failure — not a result derived
from `"2 + 2"`. -/
theorem calculator_alert_counterexample :
    executeCalculator (.obj [("expression", .str "2 + 2; alert(1)")]) =
      .error "Calculation failed: 2 is not a function" := rfl

/-- C5 (amended): `"2 + 2"` evaluates to 4 with the original expression in
the payload; on `"2 + 2; alert(1)"` every character outside
`0-9 + - * / ( ) . \s` is stripped before evaluation, leaving
`"2 + 2 (1)"`, whose evaluation throws (`2` applied as a function), so a
calculation failure is returned rather than a value derived from
`"2 + 2"`; and every expression that is empty after stripping fails with
the validation error. -/
theorem calculator_behavior :
    executeCalculator (.obj [("expression", .str "2 + 2")]) =
      .ok ("2 + 2", .fin 4) ∧
    sanitizeExpression "2 + 2; alert(1)" = "2 + 2 (1)" ∧
    executeCalculator (.obj [("expression", .str "2 + 2; alert(1)")]) =
      .error "Calculation failed: 2 is not a function" ∧
    (∀ s, sanitizeExpression s = "" →
      executeCalculator (.obj [("expression", .str s)]) =
        .error "Calculation failed: Invalid mathematical expression") := by
  refine ⟨rfl, rfl, rfl, ?_⟩
  intro s h
  simp [executeCalculator, JValue.getField, h]

theorem calculator_behavior_witness :
    executeCalculator (.obj [("expression", .str "abc")]) =
      .error "Calculation failed: Invalid mathematical expression" :=
  calculator_behavior.2.2.2 "abc" rfl

/-- C6 counterexample: a run exhausted after iterations that executed a
tool reports as its result the text of the last transcript turn — the
user-origin tool-result message — and not the last model-origin text
(every reply in this run is `demoCallText`, yet the result differs from
it). -/
theorem exhausted_result_counterexample :
    (executeAgentWithTools demoPlatform (fun _ => .ok demoCallText) [echoTool]
        "seed").result =
      some ("Tool \"echo\" execution result:\nRESULT\n\nPlease continue with the task using this information.") ∧
    ((executeAgentWithTools demoPlatform (fun _ => .ok demoCallText) [echoTool]
        "seed").result == some demoCallText) = false ∧
    (executeAgentWithTools demoPlatform (fun _ => .ok demoCallText) [echoTool]
        "seed").error = some "Max iterations reached. Task may be incomplete." :=
  ⟨rfl, rfl, rfl⟩

/-- C6 (amended): when the loop has consumed the whole iteration budget,
the run ends EXHAUSTED: `success = false`, the distinguishable error
`Max iterations reached. Task may be incomplete.`, and as best-effort
partial result the text of the LAST transcript turn — which, after an
iteration that executed a tool, is the user-origin tool-result turn
rather than the last model reply — or null when there is no such text. -/
theorem exhausted_returns_last_turn (p : JsPlatform)
    (callLLM : List Turn → Except String String) (tools : List ToolDef)
    (iteration : Nat) (history : List Turn) (log : List ToolExecRecord) :
    runLoopAux p callLLM tools 0 iteration history log =
      ⟨false, some "Max iterations reached. Task may be incomplete.",
        lastTurnText history, iteration, log, history⟩ := rfl

/-- The statistics `executeDataAnalyzer` returns on `[1, 2, 3, 4]`. -/
def analyzerDemoResult : AnalyzerSuccess :=
  ⟨.str "summary", 4, 10, QV.norm 5 2, QV.norm 5 2, 1, 4, 3, QV.norm 5 4⟩

/-- C7: on `[1,2,3,4]` the analyzer returns count 4, sum 10, mean 5/2,
median 5/2 (mean of the two middle order statistics), min 1, max 4,
range 3, population variance 5/4, and a standard deviation equal to
`√(5/4) ≈ 1.118`; a non-array, an empty array, and data with no numeric
entries after coercion each yield the validation error instead. -/
theorem data_analyzer_stats :
    executeDataAnalyzer (.obj [("data", .arr [.num 1, .num 2, .num 3, .num 4])]) =
      .ok analyzerDemoResult ∧
    analyzerDemoResult.standardDeviation = Real.sqrt ((5 : ℝ) / 4) ∧
    (1.118 : ℝ) ≤ analyzerDemoResult.standardDeviation ∧
    analyzerDemoResult.standardDeviation ≤ (1.119 : ℝ) ∧
    executeDataAnalyzer (.obj [("data", .str "x")]) =
      .error "Data must be a non-empty array" ∧
    executeDataAnalyzer (.obj [("data", .arr [])]) =
      .error "Data must be a non-empty array" ∧
    executeDataAnalyzer (.obj [("data", .arr [.str "hello"])]) =
      .error "No valid numeric data found" := by
  have hsd : analyzerDemoResult.standardDeviation = Real.sqrt ((5 : ℝ) / 4) := by
    have h1 : analyzerDemoResult.variance.toRat = (5 : ℚ) / 4 := by
      norm_num [show analyzerDemoResult.variance = ⟨5, 4⟩ from rfl, QV.toRat]
    rw [AnalyzerSuccess.standardDeviation, h1]
    norm_num
  refine ⟨rfl, hsd, ?_, ?_, rfl, rfl, rfl⟩
  · rw [hsd]
    have h2 : ((1.118 : ℝ)) = Real.sqrt (1.118 ^ 2) := by
      rw [Real.sqrt_sq (by norm_num)]
    rw [h2]
    apply Real.sqrt_le_sqrt
    norm_num
  · rw [hsd]
    have h2 : ((1.119 : ℝ)) = Real.sqrt (1.119 ^ 2) := by
      rw [Real.sqrt_sq (by norm_num)]
    rw [h2]
    apply Real.sqrt_le_sqrt
    norm_num

/-- What one regex match contributes to the parser's output: the parsed
object's `function` and `arguments` properties, or nothing when
`JSON.parse` throws. -/
def matchToCall (jp : String → Option JValue) (m : Nat × String) : Option FnCall :=
  (jp m.2).map (fun v => ⟨v.getField "function", v.getField "arguments"⟩)

theorem parseCallsLoopFuel_eq (jp : String → Option JValue) :
    ∀ (fuel : Nat) (s : List Char) (offset : Nat) (acc : List FnCall),
      parseCallsLoopFuel fuel jp s acc =
        acc ++ (regexMatchesFuel fuel s offset).filterMap (matchToCall jp) := by
  intro fuel
  induction fuel with
  | zero => intro s offset acc; simp [parseCallsLoopFuel, regexMatchesFuel]
  | succ f ih =>
      intro s offset acc
      cases hm : findCallMatch s with
      | none => simp [parseCallsLoopFuel, regexMatchesFuel, hm]
      | some pair =>
          obtain ⟨i, stop⟩ := pair
          cases hj : jp (String.mk ((s.drop i).take (stop - i))) with
          | none =>
              simp [parseCallsLoopFuel, regexMatchesFuel, hm, matchToCall, hj,
                ih (s.drop stop) (offset + stop) acc]
          | some v =>
              simp [parseCallsLoopFuel, regexMatchesFuel, hm, matchToCall, hj,
                ih (s.drop stop) (offset + stop)
                  (acc ++ [⟨v.getField "function", v.getField "arguments"⟩])]

theorem regexMatchesFuel_offset_le :
    ∀ (fuel : Nat) (s : List Char) (offset : Nat) (x : Nat × String),
      x ∈ regexMatchesFuel fuel s offset → offset ≤ x.1 := by
  intro fuel
  induction fuel with
  | zero => intro s offset x hx; simp [regexMatchesFuel] at hx
  | succ f ih =>
      intro s offset x hx
      cases hm : findCallMatch s with
      | none => simp [regexMatchesFuel, hm] at hx
      | some pair =>
          obtain ⟨i, stop⟩ := pair
          rw [regexMatchesFuel, hm] at hx
          rcases List.mem_cons.mp hx with h1 | h2
          · rw [h1]; omega
          · have := ih (s.drop stop) (offset + stop) x h2
            omega

theorem findCallMatch_lt (s : List Char) (i stop : Nat)
    (h : findCallMatch s = some (i, stop)) : i < stop := by
  unfold findCallMatch at h
  split at h
  · exact absurd h (by simp)
  · split at h
    · exact absurd h (by simp)
    · simp only [Option.some_inj, Prod.mk.injEq] at h
      omega

theorem regexMatchesFuel_chain :
    ∀ (fuel : Nat) (s : List Char) (offset : Nat),
      List.Chain' (· < ·) ((regexMatchesFuel fuel s offset).map Prod.fst) := by
  intro fuel
  induction fuel with
  | zero => intro s offset; simp [regexMatchesFuel]
  | succ f ih =>
      intro s offset
      cases hm : findCallMatch s with
      | none => simp [regexMatchesFuel, hm]
      | some pair =>
          obtain ⟨i, stop⟩ := pair
          rw [regexMatchesFuel, hm]
          rw [List.map_cons, List.chain'_cons']
          refine ⟨?_, ih (s.drop stop) (offset + stop)⟩
          intro b hb
          have hbmem := List.mem_of_mem_head? hb
          obtain ⟨x, hx, hxb⟩ := List.mem_map.mp hbmem
          have h1 := regexMatchesFuel_offset_le f (s.drop stop) (offset + stop) x hx
          have h2 := findCallMatch_lt s i stop hm
          omega

/-- C8: the extracted requests are exactly the (independently
JSON-parsed) regex matches in their order of appearance — the match
offsets are strictly increasing, a match that fails to parse is dropped
by the `filterMap` without disturbing later matches, and a text with no
match of the call shape yields the empty sequence. -/
theorem parse_calls_spec (jp : String → Option JValue) (text : String) :
    parseFunctionCalls jp text =
      (regexMatches text.toList).filterMap (matchToCall jp) ∧
    List.Chain' (· < ·) ((regexMatches text.toList).map Prod.fst) ∧
    (regexMatches text.toList = [] → parseFunctionCalls jp text = []) := by
  have h1 : parseFunctionCalls jp text =
      (regexMatches text.toList).filterMap (matchToCall jp) := by
    simpa [parseFunctionCalls, regexMatches] using
      parseCallsLoopFuel_eq jp (text.toList.length + 1) text.toList 0 []
  refine ⟨h1, regexMatchesFuel_chain _ _ _, ?_⟩
  intro h
  rw [h1, h]
  rfl

theorem parse_calls_spec_witness :
    parseFunctionCalls demoPlatform.jsonParse "plain text" = [] :=
  (parse_calls_spec demoPlatform.jsonParse "plain text").2.2 rfl

/-- C9: per parsed call, an unresolved tool name contributes nothing — no
invocation, no log record, no transcript turn — while each resolved call
contributes exactly one log record and one user-origin tool-result turn,
in parse order; and a reply whose calls were processed keeps the run
iterating (the loop recurses) instead of failing. -/
theorem tool_call_processing (p : JsPlatform) (tools : List ToolDef)
    (iteration : Nat) (calls : List FnCall) (history : List Turn)
    (log : List ToolExecRecord) :
    (processCalls p tools iteration calls history log =
      (history ++ calls.filterMap (callTurn p tools),
       log ++ calls.filterMap (callRecord p tools iteration))) ∧
    (∀ (callLLM : List Turn → Except String String) (remaining : Nat) (text : String),
      callLLM history = .ok text → text ≠ "" →
      parseFunctionCalls p.jsonParse text = calls → calls ≠ [] →
      runLoopAux p callLLM tools (remaining + 1) iteration history log =
        runLoopAux p callLLM tools remaining (iteration + 1)
          ((history ++ [⟨"model", text⟩]) ++ calls.filterMap (callTurn p tools))
          (log ++ calls.filterMap (callRecord p tools (iteration + 1)))) := by
  refine ⟨processCalls_eq p tools iteration calls history log, ?_⟩
  intro callLLM remaining text hc ht hp hne
  have hemp : ¬ (calls.isEmpty = true) := by simpa [List.isEmpty_iff] using hne
  simp [runLoopAux, hc, ht, hp, hemp,
    processCalls_eq p tools (iteration + 1) calls (history ++ [⟨"model", text⟩]) log]

theorem tool_call_processing_witness :
    runLoopAux demoPlatform (fun _ => .ok demoCallText) [] 1 0 [⟨"user", "seed"⟩] [] =
      runLoopAux demoPlatform (fun _ => .ok demoCallText) [] 0 1
        [⟨"user", "seed"⟩, ⟨"model", demoCallText⟩] [] :=
  (tool_call_processing demoPlatform [] 0
      (parseFunctionCalls demoPlatform.jsonParse demoCallText)
      [⟨"user", "seed"⟩] []).2 (fun _ => .ok demoCallText) 0 demoCallText
    rfl (by decide) rfl (List.cons_ne_nil _ _)

/-- The string contents of a modelled value when it is a string. -/
def JValue.asString : JValue → Option String
  | .str s => some s
  | _ => none

/-- C10 counterexample: a caller-supplied temperature `"0"` — the string
form the run form produces, falsy after numeric coercion — is NOT
replaced by the default: `parseFloat("0")` is the falsy number 0, so
`parseFloat(v) || v` falls back to the original truthy string `"0"`,
which then survives `temperature || 0.7`, making the request differ from
the omitted-parameter request. -/
theorem zero_string_param_counterexample :
    (buildGenerationConfig (extractGeminiParameters
        [("temperature", .str "0")])).temperature.asString = some "0" ∧
    (buildGenerationConfig (extractGeminiParameters [])).temperature.asString =
      none :=
  ⟨rfl, rfl⟩

/-- C10 (amended): a generation parameter whose stored value
`parseFloat(v) || v` is itself falsy — in particular the NUMBER 0 for
temperature, topK or topP — is silently replaced by the defaults
(temperature 0.7, topK 40, topP 0.95, maxOutputTokens 8000), making the
request indistinguishable from one with the parameter omitted; but a
truthy original whose numeric parse is falsy, such as the STRING `"0"`,
survives the fallback and is forwarded verbatim. -/
theorem falsy_param_defaulting :
    buildGenerationConfig (extractGeminiParameters
        [("temperature", .num 0), ("topK", .num 0), ("topP", .num 0)]) =
      buildGenerationConfig (extractGeminiParameters []) ∧
    buildGenerationConfig (extractGeminiParameters []) =
      ⟨.num (QV.norm 7 10), .num 40, .num (QV.norm 95 100), .num 8000⟩ ∧
    (buildGenerationConfig (extractGeminiParameters
        [("temperature", .str "0")])).temperature = .str "0" :=
  ⟨rfl, rfl, rfl⟩
